import Mathlib

/-!
Shallow embedding of `src/agent.py`: the lifecycle callbacks of the two
ADK agents (before/after agent, before/after model, before/after tool).

Modelling conventions:
* Python `print` side effects are modelled by returning, next to the
  callback's Python return value, the list of lines printed (each element
  is one `print` call's text).
* The `google.genai` / ADK data classes (`types.Part`, `types.Content`,
  `LlmRequest`, `LlmResponse`, ...) are external library code that is not
  part of this repository; they are embedded as records holding exactly
  the fields the repository's code reads or writes, following the spec's
  data model ("a part is one of text, inline binary payload with a media
  type, referenced file payload with a media type, function invocation
  request, function invocation result"; "usage record: counts of input
  tokens, output tokens, total tokens").
* Python truthiness is made explicit: an optional object is truthy iff
  present, an optional string iff present and non-empty, an optional
  count iff present and non-zero, a list iff non-empty.
* Opaque host-supplied values that the callbacks only ever format into a
  trace line (the session state snapshot, tool argument and tool response
  dictionaries) are carried as their rendered strings.
-/

namespace Agent

/-- `types.Blob`: inline binary payload. Only `mime_type` is read by the
code (`src/agent.py` line 32-33); the payload bytes are never touched. -/
structure Blob where
  mime_type : Option String
deriving DecidableEq, Repr

/-- `types.FileData`: referenced file payload. Only `mime_type` is read by
the code (`src/agent.py` line 34-35). -/
structure FileData where
  mime_type : Option String
deriving DecidableEq, Repr

/-- `types.FunctionCall`: a function invocation request, with its optional
name and optional argument dictionary (string keys; the values are carried
as their rendered strings, the code only formats them into text). -/
structure FunctionCall where
  name : Option String
  args : Option (List (String × String))
deriving DecidableEq, Repr

/-- `types.Part`: one atomic unit of a conversation turn. Exactly the
fields the code reads: `text`, `inline_data`, `file_data`,
`function_call`. -/
structure Part where
  text : Option String := none
  inline_data : Option Blob := none
  file_data : Option FileData := none
  function_call : Option FunctionCall := none
deriving DecidableEq, Repr

/-- `types.Content`: an ordered sequence of parts with a role. A Python
`parts` of `None` is collapsed to the empty list (the code treats both as
falsy where it guards, `src/agent.py` line 41). -/
structure Content where
  parts : List Part
  role : Option String
deriving DecidableEq, Repr

/-- Usage record of an `LlmResponse` (`usage_metadata`): optional token
counts (`src/agent.py` lines 79-87). -/
structure UsageMetadata where
  prompt_token_count : Option Nat
  candidates_token_count : Option Nat
  total_token_count : Option Nat
deriving DecidableEq, Repr

/-- `LlmRequest`: the outgoing model request; the code reads only its
`contents` (`src/agent.py` line 28). -/
structure LlmRequest where
  contents : List Content
deriving DecidableEq, Repr

/-- `LlmResponse`: the model response; the code reads and writes its
`content` and `usage_metadata` (`src/agent.py` lines 41, 69-71, 79). -/
structure LlmResponse where
  content : Option Content := none
  usage_metadata : Option UsageMetadata := none
deriving DecidableEq, Repr

/-- `CallbackContext`: the code reads `agent_name` and formats
`state.to_dict()`; the state snapshot is opaque to this layer and is
carried as its rendered string. -/
structure CallbackContext where
  agent_name : String
  state_repr : String
deriving DecidableEq, Repr

/-- `BaseTool`: the code reads only `name` (`src/agent.py` line 92). -/
structure BaseTool where
  name : String
deriving DecidableEq, Repr

/-- `ToolContext`: the code reads only `agent_name`. -/
structure ToolContext where
  agent_name : String
deriving DecidableEq, Repr

/-- `before_agent_callback` (`src/agent.py` lines 14-17): prints two trace
lines and returns `None` so the agent runs. -/
def before_agent_callback (ctx : CallbackContext) : Option Content × List String :=
  (none,
   ["\n[Callback] ==> BEFORE AGENT: " ++ ctx.agent_name,
    "    State: " ++ ctx.state_repr])

/-- `after_agent_callback` (`src/agent.py` lines 19-22): prints two trace
lines and returns `None`. -/
def after_agent_callback (ctx : CallbackContext) : Option Content × List String :=
  (none,
   ["\n[Callback] <== AFTER AGENT: " ++ ctx.agent_name,
    "    State: " ++ ctx.state_repr])

/-- The categories one part contributes to the `content_types` list of
`before_model_callback` from its `text` field (`src/agent.py` lines
30-31): `"text"` when `part.text` is truthy (present and non-empty). -/
def textCategory (p : Part) : List String :=
  match p.text with
  | some t => if t ≠ "" then ["text"] else []
  | none => []

/-- The category contributed by `inline_data` (`src/agent.py` lines
32-33): the mime type when the blob is present and its `mime_type` is
truthy. -/
def inlineCategory (p : Part) : List String :=
  match p.inline_data with
  | some b =>
    match b.mime_type with
    | some m => if m ≠ "" then [m] else []
    | none => []
  | none => []

/-- The category contributed by `file_data` (`src/agent.py` lines
34-35). -/
def fileCategory (p : Part) : List String :=
  match p.file_data with
  | some f =>
    match f.mime_type with
    | some m => if m ≠ "" then [m] else []
    | none => []
  | none => []

/-- All categories one part appends, in the order of the three
independent `if` statements of `src/agent.py` lines 30-35. -/
def partContentTypes (p : Part) : List String :=
  textCategory p ++ inlineCategory p ++ fileCategory p

/-- The `content_types` list accumulated by the nested loops of
`src/agent.py` lines 28-35, in append order. -/
def collectContentTypes (req : LlmRequest) : List String :=
  req.contents.flatMap fun c => c.parts.flatMap partContentTypes

/-- Lexicographic comparison of character lists, the order Python uses to
sort strings: shorter prefixes come first, otherwise the first differing
character decides. -/
def lexLe : List Char → List Char → Bool
  | [], _ => true
  | _ :: _, [] => false
  | a :: as, b :: bs => if a < b then true else if b < a then false else lexLe as bs

/-- Python string comparison `a <= b`: lexicographic on the characters. -/
def strLeB (a b : String) : Bool :=
  lexLe a.data b.data

/-- Python `sorted(list(set(xs)))` for strings: the distinct elements of
`xs` in lexicographically ascending order (`src/agent.py` line 37). -/
def pySortedSet (xs : List String) : List String :=
  (xs.dedup).insertionSort fun a b => strLeB a b = true

/-- `before_model_callback` (`src/agent.py` lines 25-38): prints the
before-model trace line, then the deduplicated, sorted content-type line
when any category was collected, and returns `None` so the model call
proceeds with the request unchanged. -/
def before_model_callback (ctx : CallbackContext) (req : LlmRequest) :
    Option LlmResponse × List String :=
  let content_types := collectContentTypes req
  (none,
   ("\n[Callback] --> BEFORE MODEL CALL for agent: " ++ ctx.agent_name) ::
     (if content_types ≠ [] then
        ["    Content Types: " ++ String.intercalate ", " (pySortedSet content_types)]
      else []))

/-- The loop test of `src/agent.py` line 45: `part.function_call and
part.function_call.name == "transfer_to_agent"` (a `name` of `None`
compares unequal to the string). -/
def isTransferCall (p : Part) : Bool :=
  match p.function_call with
  | some fc => fc.name == some "transfer_to_agent"
  | none => false

/-- The search loop of `src/agent.py` lines 43-47: the first part whose
function call is the delegation primitive, or `none`. -/
def findTransferPart (parts : List Part) : Option Part :=
  parts.find? isTransferCall

/-- Python `str.strip()` with no argument: the string with leading and
trailing whitespace characters removed. -/
def pyStrip (s : String) : String :=
  (((s.data.dropWhile Char.isWhitespace).reverse.dropWhile Char.isWhitespace).reverse).asString

/-- One part's contribution to `has_text_reason` (`src/agent.py` lines
52-54): the part passes the `if part.text` filter (present, non-empty)
and `part.text.strip()` is truthy (non-whitespace content remains). -/
def hasTextReasonPart (p : Part) : Bool :=
  match p.text with
  | some t => (t != "") && (pyStrip t != "")
  | none => false

/-- `has_text_reason` of `src/agent.py` lines 52-54: some part carries
text with non-whitespace content. -/
def hasTextReason (parts : List Part) : Bool :=
  parts.any hasTextReasonPart

/-- Modelled from the spec: the target agent's name is "extracted from the
invocation's arguments" and a failed lookup is "caught and treated as no
modification needed". The attribute semantics of
`transfer_call_part.args["agent_name"]` (`src/agent.py` line 59) live in
the external `google.genai` `types.Part` class, which is not under
`src/`; following the spec the extraction reads the `"agent_name"` entry
of the delegation invocation's argument dictionary and yields `none` on
the caught `KeyError` (key absent) or `TypeError` (arguments absent /
wrong shape). -/
def extractTargetAgent (p : Part) : Option String :=
  match p.function_call with
  | some fc =>
    match fc.args with
    | some kvs => kvs.lookup "agent_name"
    | none => none
  | none => none

/-- The synthesized generic explanation of `src/agent.py` lines 60-62. -/
def handoffExplanation (target : String) : String :=
  "Handing off to `" ++ target ++ "` to complete the request."

/-- The default path of `after_model_callback` (`src/agent.py` lines
77-87): the after-model trace line, then, when usage metadata is present,
the token-usage header plus one line per truthy (present, non-zero)
count. -/
def afterModelDefaultLog (ctx : CallbackContext) (resp : LlmResponse) : List String :=
  ("\n[Callback] <-- AFTER MODEL CALL for agent: " ++ ctx.agent_name) ::
    (match resp.usage_metadata with
     | some u =>
       "    Token Usage:" ::
         ((match u.prompt_token_count with
           | some n => if n ≠ 0 then ["        Prompt: " ++ toString n] else []
           | none => []) ++
          (match u.candidates_token_count with
           | some n => if n ≠ 0 then ["        Candidates: " ++ toString n] else []
           | none => []) ++
          (match u.total_token_count with
           | some n => if n ≠ 0 then ["        Total: " ++ toString n] else []
           | none => []))
     | none => [])

/-- `after_model_callback` (`src/agent.py` lines 40-88). When the
response has a non-empty parts list containing a `transfer_to_agent`
invocation and no part has non-whitespace text, it synthesizes the
generic explanation from the invocation's `agent_name` argument, prepends
it as a new leading text part and returns the rebuilt response (carrying
over the role and the usage metadata) without printing; in every other
case - no content, empty parts, no delegation invocation, an existing
text reason, or a failed argument lookup - it prints the default
usage-logging lines and returns `None` so the original response is
used. -/
def after_model_callback (ctx : CallbackContext) (resp : LlmResponse) :
    Option LlmResponse × List String :=
  let defaultResult : Option LlmResponse × List String :=
    (none, afterModelDefaultLog ctx resp)
  match resp.content with
  | some c =>
    if c.parts.isEmpty then defaultResult
    else
      match findTransferPart c.parts with
      | some transfer_call_part =>
        if hasTextReason c.parts then defaultResult
        else
          match extractTargetAgent transfer_call_part with
          | some target_agent =>
            let explanation_part : Part := { text := some (handoffExplanation target_agent) }
            let new_parts := explanation_part :: c.parts
            let new_content : Content := { parts := new_parts, role := c.role }
            (some { content := some new_content, usage_metadata := resp.usage_metadata }, [])
          | none => defaultResult
      | none => defaultResult
  | none => defaultResult

/-- The response the host delivers downstream after the after-model hook
runs: the returned override when the callback returned one, otherwise the
original response unchanged. -/
def deliveredResponse (ctx : CallbackContext) (resp : LlmResponse) : LlmResponse :=
  match (after_model_callback ctx resp).1 with
  | some r => r
  | none => resp

/-- Rendering of a Python dictionary for a trace line. -/
def reprDict (kvs : List (String × String)) : String :=
  "\x7b" ++ String.intercalate ", " (kvs.map fun kv => kv.1 ++ ": " ++ kv.2) ++ "\x7d"

/-- `before_tool_callback` (`src/agent.py` lines 91-95): prints three
trace lines and returns `None` so the tool call proceeds. -/
def before_tool_callback (tool : BaseTool) (args : List (String × String))
    (tool_context : ToolContext) : Option (List (String × String)) × List String :=
  (none,
   ["\n[Callback] --> BEFORE TOOL CALL: " ++ tool.name,
    "    Agent: " ++ tool_context.agent_name,
    "    Args: " ++ reprDict args])

/-- `after_tool_callback` (`src/agent.py` lines 97-101): prints three
trace lines and returns `None` so the original tool response is used. -/
def after_tool_callback (tool : BaseTool) (args : List (String × String))
    (tool_context : ToolContext) (tool_response : List (String × String)) :
    Option (List (String × String)) × List String :=
  (none,
   ["\n[Callback] <-- AFTER TOOL CALL: " ++ tool.name,
    "    Agent: " ++ tool_context.agent_name,
    "    Response: " ++ reprDict tool_response])

/-- Formalized from the spec invariant, to compare with the code: walks
the parts in order, tracking in `seen` whether a text part with
non-whitespace content has occurred yet, and fails on a delegation
invocation reached before any such text. -/
def handoffPrecededByTextAux : Bool → List Part → Bool
  | _, [] => true
  | seen, p :: rest =>
    if isTransferCall p && !seen then false
    else handoffPrecededByTextAux (seen || hasTextReasonPart p) rest

/-- The spec invariant on a delivered parts list: every delegation
invocation is preceded, in part order, by a text part with non-whitespace
content. -/
def handoffPrecededByText (parts : List Part) : Bool :=
  handoffPrecededByTextAux false parts

/-! ### Concrete fixtures used by witnesses and counterexamples -/

/-- A well-formed delegation invocation part: `transfer_to_agent` with an
`agent_name` argument. -/
def transferPart : Part :=
  { function_call := some { name := some "transfer_to_agent", args := some [("agent_name", "search_format_agent")] } }

/-- A delegation invocation whose argument dictionary lacks the
`agent_name` key. -/
def transferPartNoKey : Part :=
  { function_call := some { name := some "transfer_to_agent", args := some [("agent", "search_format_agent")] } }

/-- A delegation invocation with no argument dictionary at all. -/
def transferPartNoArgs : Part :=
  { function_call := some { name := some "transfer_to_agent", args := none } }

/-- A text part holding only whitespace: non-empty, but stripped to
nothing. -/
def wsTextPart : Part := { text := some " " }

/-- A text part holding a genuine explanation. -/
def reasonTextPart : Part := { text := some "I need the latest stock information, so this goes to the search agent." }

/-- A plain text part of a user query. -/
def queryTextPart : Part := { text := some "What is the price of TSLA?" }

/-- An inline PNG payload part. -/
def pngPart : Part := { inline_data := some { mime_type := some "image/png" } }

/-- A sample callback context. -/
def ctxRoot : CallbackContext := { agent_name := "root_agent", state_repr := "\x7b\x7d" }

/-- Sample usage metadata with all three counts present and non-zero. -/
def usageSample : UsageMetadata :=
  { prompt_token_count := some 10, candidates_token_count := some 20, total_token_count := some 30 }

/-- Content holding only a well-formed delegation invocation. -/
def contentSynth : Content := { parts := [transferPart], role := some "model" }

/-- A response that delegates without any text explanation. -/
def respSynth : LlmResponse := { content := some contentSynth, usage_metadata := some usageSample }

/-- Content whose only non-whitespace-free text is whitespace: a
whitespace text part next to a well-formed delegation invocation. -/
def contentWs : Content := { parts := [wsTextPart, transferPart], role := some "model" }

/-- A response carrying a delegation invocation and a non-empty but
whitespace-only text part. -/
def respWs : LlmResponse := { content := some contentWs, usage_metadata := some usageSample }

/-- Content with a genuine explanation before the delegation
invocation. -/
def contentReason : Content := { parts := [reasonTextPart, transferPart], role := some "model" }

/-- A response that delegates and explains itself. -/
def respReason : LlmResponse := { content := some contentReason, usage_metadata := some usageSample }

/-- Content whose explanation comes only after the delegation
invocation. -/
def contentLate : Content := { parts := [transferPart, reasonTextPart], role := some "model" }

/-- A response whose delegation invocation precedes its only text
explanation. -/
def respLate : LlmResponse := { content := some contentLate, usage_metadata := some usageSample }

/-- Content delegating with a malformed argument dictionary and no text
reason. -/
def contentNoKey : Content := { parts := [transferPartNoKey], role := some "model" }

/-- A response whose delegation invocation lacks the `agent_name`
argument. -/
def respNoKey : LlmResponse := { content := some contentNoKey, usage_metadata := some usageSample }

/-- A plain answer: one text part, no function invocation. -/
def contentPlain : Content := { parts := [queryTextPart], role := some "model" }

/-- A response with no function-invocation part. -/
def respPlain : LlmResponse := { content := some contentPlain, usage_metadata := some usageSample }

/-- A request holding one text part and one inline PNG payload, the PNG
first and the text part repeated. -/
def reqPng : LlmRequest :=
  { contents := [{ parts := [pngPart, queryTextPart, pngPart, queryTextPart], role := some "user" }] }

/-- The same categories in the opposite order and without repeats. -/
def reqPng2 : LlmRequest :=
  { contents := [{ parts := [queryTextPart, pngPart], role := some "user" }] }

/-- A part carrying both non-empty text and an inline PNG payload. -/
def dualPart : Part :=
  { text := some "caption", inline_data := some { mime_type := some "image/png" } }

/-- A part whose text is the empty string. -/
def emptyTextPart : Part := { text := some "" }

/-- A request none of whose parts yields a content category. -/
def reqNoCats : LlmRequest :=
  { contents := [{ parts := [transferPartNoArgs, emptyTextPart], role := some "user" }] }

/-! ### Order facts about the lexicographic comparison -/

theorem lexLe_cons {a b : Char} {as bs : List Char} :
    lexLe (a :: as) (b :: bs) = true ↔ a < b ∨ (a = b ∧ lexLe as bs = true) := by
  rcases lt_trichotomy a b with h | h | h
  · simp [lexLe, h]
  · subst h
    simp [lexLe, lt_irrefl]
  · simp [lexLe, h, lt_asymm h, ne_of_gt h]

theorem lexLe_total (as bs : List Char) : lexLe as bs = true ∨ lexLe bs as = true := by
  induction as generalizing bs with
  | nil => exact Or.inl rfl
  | cons a as ih =>
    cases bs with
    | nil => exact Or.inr rfl
    | cons b bs =>
      rcases lt_trichotomy a b with h | h | h
      · exact Or.inl (lexLe_cons.2 (Or.inl h))
      · subst h
        rcases ih bs with h' | h'
        · exact Or.inl (lexLe_cons.2 (Or.inr ⟨rfl, h'⟩))
        · exact Or.inr (lexLe_cons.2 (Or.inr ⟨rfl, h'⟩))
      · exact Or.inr (lexLe_cons.2 (Or.inl h))

theorem lexLe_trans {as bs cs : List Char} (h1 : lexLe as bs = true)
    (h2 : lexLe bs cs = true) : lexLe as cs = true := by
  induction as generalizing bs cs with
  | nil => rfl
  | cons a as ih =>
    cases bs with
    | nil => exact absurd h1 (by simp [lexLe])
    | cons b bs =>
      cases cs with
      | nil => exact absurd h2 (by simp [lexLe])
      | cons c cs =>
        rcases lexLe_cons.1 h1 with hab | ⟨hab, h1'⟩
        · rcases lexLe_cons.1 h2 with hbc | ⟨hbc, _⟩
          · exact lexLe_cons.2 (Or.inl (lt_trans hab hbc))
          · exact lexLe_cons.2 (Or.inl (hbc ▸ hab))
        · subst hab
          rcases lexLe_cons.1 h2 with hbc | ⟨hbc, h2'⟩
          · exact lexLe_cons.2 (Or.inl hbc)
          · exact lexLe_cons.2 (Or.inr ⟨hbc, ih h1' h2'⟩)

theorem lexLe_antisymm {as bs : List Char} (h1 : lexLe as bs = true)
    (h2 : lexLe bs as = true) : as = bs := by
  induction as generalizing bs with
  | nil =>
    cases bs with
    | nil => rfl
    | cons b bs => exact absurd h2 (by simp [lexLe])
  | cons a as ih =>
    cases bs with
    | nil => exact absurd h1 (by simp [lexLe])
    | cons b bs =>
      rcases lexLe_cons.1 h1 with hab | ⟨hab, h1'⟩
      · rcases lexLe_cons.1 h2 with hba | ⟨hba, _⟩
        · exact absurd hba (lt_asymm hab)
        · exact absurd hba (ne_of_gt hab)
      · subst hab
        rcases lexLe_cons.1 h2 with hba | ⟨_, h2'⟩
        · exact absurd hba (lt_irrefl a)
        · rw [ih h1' h2']

instance strLeB_isTotal : IsTotal String fun a b => strLeB a b = true :=
  ⟨fun a b => lexLe_total a.data b.data⟩

instance strLeB_isTrans : IsTrans String fun a b => strLeB a b = true :=
  ⟨fun _ _ _ => lexLe_trans⟩

instance strLeB_isAntisymm : IsAntisymm String fun a b => strLeB a b = true :=
  ⟨fun _ _ h1 h2 => String.toList_inj.mp (lexLe_antisymm h1 h2)⟩

/-- The report of Python `sorted(list(set(xs)))` depends only on which
strings occur in `xs`, not on their order or multiplicity. -/
theorem pySortedSet_eq_of_mem_iff {xs ys : List String}
    (h : ∀ a, a ∈ xs ↔ a ∈ ys) : pySortedSet xs = pySortedSet ys := by
  have hmid : xs.dedup.Perm ys.dedup := by
    refine (List.perm_ext_iff_of_nodup (List.nodup_dedup xs) (List.nodup_dedup ys)).2 ?_
    intro a
    simpa only [List.mem_dedup] using h a
  exact List.eq_of_perm_of_sorted
    ((List.perm_insertionSort _ _).trans (hmid.trans (List.perm_insertionSort _ _).symm))
    (List.sorted_insertionSort _ _) (List.sorted_insertionSort _ _)

theorem mem_pySortedSet {a : String} {xs : List String} :
    a ∈ pySortedSet xs ↔ a ∈ xs := by
  rw [pySortedSet, (List.perm_insertionSort _ _).mem_iff, List.mem_dedup]

/-! ### Small facts about the after-model policy -/

theorem isEmpty_false_of_findTransferPart {parts : List Part} {tp : Part}
    (h : findTransferPart parts = some tp) : parts.isEmpty = false := by
  cases parts with
  | nil => simp [findTransferPart] at h
  | cons _ _ => rfl

theorem findTransferPart_eq_none {parts : List Part}
    (h : ∀ p ∈ parts, p.function_call = none) : findTransferPart parts = none := by
  apply List.find?_eq_none.2
  intro p hp
  simp [isTransferCall, h p hp]

/-- The synthesis branch of the policy, fully evaluated: with a detected
delegation invocation, no text reason and a successful argument lookup,
the callback returns the rebuilt response and prints nothing. -/
theorem after_model_synthesizes (ctx : CallbackContext) {resp : LlmResponse}
    {c : Content} {tp : Part} {target : String}
    (hc : resp.content = some c) (hfind : findTransferPart c.parts = some tp)
    (hnotext : hasTextReason c.parts = false)
    (hextract : extractTargetAgent tp = some target) :
    after_model_callback ctx resp =
      (some ⟨some ⟨⟨some (handoffExplanation target), none, none, none⟩ :: c.parts, c.role⟩, resp.usage_metadata⟩, []) := by
  simp [after_model_callback, hc, isEmpty_false_of_findTransferPart hfind, hfind, hnotext,
    hextract]

/-- The default path taken when the model already explained itself. -/
theorem after_model_default_of_reason (ctx : CallbackContext) {resp : LlmResponse}
    {c : Content} {tp : Part}
    (hc : resp.content = some c) (hfind : findTransferPart c.parts = some tp)
    (hreason : hasTextReason c.parts = true) :
    after_model_callback ctx resp = (none, afterModelDefaultLog ctx resp) := by
  simp [after_model_callback, hc, isEmpty_false_of_findTransferPart hfind, hfind, hreason]

/-- The default path taken when the argument lookup fails. -/
theorem after_model_default_of_noextract (ctx : CallbackContext) {resp : LlmResponse}
    {c : Content} {tp : Part}
    (hc : resp.content = some c) (hfind : findTransferPart c.parts = some tp)
    (hextract : extractTargetAgent tp = none) :
    after_model_callback ctx resp = (none, afterModelDefaultLog ctx resp) := by
  cases hreason : hasTextReason c.parts with
  | false =>
    simp [after_model_callback, hc, isEmpty_false_of_findTransferPart hfind, hfind, hreason,
      hextract]
  | true =>
    simp [after_model_callback, hc, isEmpty_false_of_findTransferPart hfind, hfind, hreason]

/-! ### Facts about the synthesized explanation text -/

theorem mem_dropWhile_of_mem {α : Type} {p : α → Bool} {l : List α} {x : α}
    (hx : x ∈ l) (hpx : p x = false) : x ∈ l.dropWhile p := by
  induction l with
  | nil => cases hx
  | cons a l ih =>
    rw [List.dropWhile_cons]
    by_cases hpa : p a = true
    · rw [if_pos hpa]
      rcases List.mem_cons.1 hx with rfl | hmem
      · rw [hpa] at hpx
        cases hpx
      · exact ih hmem
    · rw [if_neg hpa]
      exact hx

theorem mem_data_handoffExplanation (t : String) :
    ('H' : Char) ∈ (handoffExplanation t).data := by
  have h : ('H' : Char) ∈ "Handing off to `".data := by decide
  simp only [handoffExplanation, String.data_append, List.mem_append]
  exact Or.inl (Or.inl h)

theorem pyStrip_ne_empty {s : String} {x : Char} (hx : x ∈ s.data)
    (hws : x.isWhitespace = false) : pyStrip s ≠ "" := by
  intro he
  have h1 := mem_dropWhile_of_mem hx hws
  have h2 := List.mem_reverse.2 h1
  have h3 := mem_dropWhile_of_mem h2 hws
  have h4 := List.mem_reverse.2 h3
  have h5 := List.ne_nil_of_mem h4
  apply h5
  simpa [pyStrip, List.asString] using congrArg String.data he

theorem handoffExplanation_ne_empty (t : String) : handoffExplanation t ≠ "" := by
  intro he
  have h := mem_data_handoffExplanation t
  rw [he] at h
  cases h

theorem hasTextReasonPart_explanation (t : String) :
    hasTextReasonPart ⟨some (handoffExplanation t), none, none, none⟩ = true := by
  simp only [hasTextReasonPart, Bool.and_eq_true, bne_iff_ne, ne_eq]
  exact ⟨handoffExplanation_ne_empty t,
    pyStrip_ne_empty (mem_data_handoffExplanation t) (by decide)⟩

theorem handoffPrecededByTextAux_true (l : List Part) :
    handoffPrecededByTextAux true l = true := by
  induction l with
  | nil => rfl
  | cons p rest ih => simp [handoffPrecededByTextAux, ih]

/-! ### Claim theorems -/

/-- C1: a model response holding a `transfer_to_agent` invocation (the one
the policy detects) whose arguments carry a valid `agent_name`, and no
text part with non-whitespace content, is rewritten: the callback returns
a response whose first part is a text part reading "Handing off to
`target` to complete the request.", followed by all original parts in
their original order. -/
theorem c1_synthesis_prepends_explanation (ctx : CallbackContext) (resp : LlmResponse)
    (c : Content) (tp : Part) (target : String)
    (hc : resp.content = some c)
    (hfind : findTransferPart c.parts = some tp)
    (hextract : extractTargetAgent tp = some target)
    (hnotext : hasTextReason c.parts = false) :
    (after_model_callback ctx resp).1 =
      some ⟨some ⟨⟨some ("Handing off to `" ++ target ++ "` to complete the request."), none, none, none⟩ :: c.parts, c.role⟩, resp.usage_metadata⟩ := by
  rw [after_model_synthesizes ctx hc hfind hnotext hextract]
  rfl

/-- Witness for C1 at a concrete delegating response with no text. -/
theorem c1_synthesis_prepends_explanation_witness :
    (after_model_callback ctxRoot respSynth).1 =
      some ⟨some ⟨⟨some ("Handing off to `" ++ "search_format_agent" ++ "` to complete the request."), none, none, none⟩ :: contentSynth.parts, contentSynth.role⟩, respSynth.usage_metadata⟩ :=
  c1_synthesis_prepends_explanation ctxRoot respSynth contentSynth transferPart
    "search_format_agent" rfl rfl rfl rfl

/-- C2 (amended): when the detected delegation invocation is accompanied
by a text part with non-whitespace content, the callback returns `None`
and the delivered response is the original, unmodified. -/
theorem c2_existing_reason_leaves_unmodified (ctx : CallbackContext) (resp : LlmResponse)
    (c : Content) (tp : Part)
    (hc : resp.content = some c)
    (hfind : findTransferPart c.parts = some tp)
    (hreason : hasTextReason c.parts = true) :
    (after_model_callback ctx resp).1 = none ∧ deliveredResponse ctx resp = resp := by
  have h := after_model_default_of_reason ctx hc hfind hreason
  exact ⟨by rw [h], by simp [deliveredResponse, h]⟩

/-- Witness for C2 at a response that delegates and explains itself. -/
theorem c2_existing_reason_leaves_unmodified_witness :
    (after_model_callback ctxRoot respReason).1 = none ∧
      deliveredResponse ctxRoot respReason = respReason :=
  c2_existing_reason_leaves_unmodified ctxRoot respReason contentReason transferPart
    rfl rfl rfl

/-- Counterexample to C2 as stated: a response whose text part is
non-empty but whitespace-only (`" "`) next to a valid delegation
invocation IS modified by the callback - the code tests
`part.text.strip()`, not mere non-emptiness. -/
theorem c2_counterexample_whitespace_only_text :
    contentWs.parts.any isTransferCall = true ∧
    contentWs.parts.head? = some wsTextPart ∧
    wsTextPart.text = some " " ∧
    (" " : String) ≠ "" ∧
    (after_model_callback ctxRoot respWs).1 ≠ none ∧
    deliveredResponse ctxRoot respWs ≠ respWs := by
  decide

/-- C3: when the detected delegation invocation's arguments lack the
`agent_name` key or have the wrong shape, the lookup failure is caught:
the callback returns `None`, the delivered response is the original, and
the default usage logging still runs. -/
theorem c3_malformed_args_default_path (ctx : CallbackContext) (resp : LlmResponse)
    (c : Content) (tp : Part)
    (hc : resp.content = some c)
    (hfind : findTransferPart c.parts = some tp)
    (hextract : extractTargetAgent tp = none) :
    (after_model_callback ctx resp).1 = none ∧
      (after_model_callback ctx resp).2 = afterModelDefaultLog ctx resp ∧
      deliveredResponse ctx resp = resp := by
  have h := after_model_default_of_noextract ctx hc hfind hextract
  exact ⟨by rw [h], by rw [h], by simp [deliveredResponse, h]⟩

/-- Witness for C3 at a delegation whose arguments lack `agent_name`. -/
theorem c3_malformed_args_default_path_witness :
    (after_model_callback ctxRoot respNoKey).1 = none ∧
      (after_model_callback ctxRoot respNoKey).2 = afterModelDefaultLog ctxRoot respNoKey ∧
      deliveredResponse ctxRoot respNoKey = respNoKey :=
  c3_malformed_args_default_path ctxRoot respNoKey contentNoKey transferPartNoKey
    rfl rfl rfl

/-- C5 (amended): after the policy runs, a delivered response containing a
delegation invocation either kept the model's own non-whitespace text
explanation (possibly after the invocation, not necessarily preceding
it), or - when the model produced none and the target is extractable -
carries the synthesized placeholder as its first part, preceding the
invocation; when the model produced no text and the target is not
extractable, the response is delivered unmodified and unexplained. -/
theorem c5_delivered_handoff_has_explanation (ctx : CallbackContext) (resp : LlmResponse)
    (c : Content) (tp : Part)
    (hc : resp.content = some c)
    (hfind : findTransferPart c.parts = some tp) :
    (hasTextReason c.parts = true → deliveredResponse ctx resp = resp) ∧
    (∀ target, hasTextReason c.parts = false → extractTargetAgent tp = some target →
      (deliveredResponse ctx resp).content =
        some ⟨⟨some (handoffExplanation target), none, none, none⟩ :: c.parts, c.role⟩ ∧
      hasTextReasonPart ⟨some (handoffExplanation target), none, none, none⟩ = true ∧
      handoffPrecededByText (⟨some (handoffExplanation target), none, none, none⟩ :: c.parts) = true ∧
      tp ∈ c.parts) ∧
    (hasTextReason c.parts = false → extractTargetAgent tp = none →
      deliveredResponse ctx resp = resp) := by
  refine ⟨?_, ?_, ?_⟩
  · intro hreason
    simp [deliveredResponse, after_model_default_of_reason ctx hc hfind hreason]
  · intro target hnotext hextract
    have h := after_model_synthesizes ctx hc hfind hnotext hextract
    refine ⟨by simp [deliveredResponse, h], hasTextReasonPart_explanation target, ?_,
      List.mem_of_find?_eq_some hfind⟩
    simp [handoffPrecededByText, handoffPrecededByTextAux, isTransferCall,
      hasTextReasonPart_explanation, handoffPrecededByTextAux_true]
  · intro hnotext hextract
    simp [deliveredResponse, after_model_default_of_noextract ctx hc hfind hextract]

/-- Witness for C5 in the synthesized case at a concrete response. -/
theorem c5_delivered_handoff_has_explanation_witness :
    (deliveredResponse ctxRoot respSynth).content =
      some ⟨⟨some (handoffExplanation "search_format_agent"), none, none, none⟩ :: contentSynth.parts, contentSynth.role⟩ ∧
    hasTextReasonPart ⟨some (handoffExplanation "search_format_agent"), none, none, none⟩ = true ∧
    handoffPrecededByText (⟨some (handoffExplanation "search_format_agent"), none, none, none⟩ :: contentSynth.parts) = true ∧
    transferPart ∈ contentSynth.parts :=
  (c5_delivered_handoff_has_explanation ctxRoot respSynth contentSynth transferPart
    rfl rfl).2.1 "search_format_agent" rfl rfl

/-- Counterexample to C5 as stated: a delivered response whose delegation
invocation comes first and whose only explanation trails it. The policy
leaves it unmodified (a text reason exists), so the hand-off is NOT
preceded, in part order, by any text - even though the target is
extractable. -/
theorem c5_counterexample_trailing_explanation :
    (deliveredResponse ctxRoot respLate).content = some contentLate ∧
    contentLate.parts.any isTransferCall = true ∧
    handoffPrecededByText contentLate.parts = false ∧
    extractTargetAgent transferPart = some "search_format_agent" := by
  decide

/-- C7: the synthesis changes nothing except prepending the explanation:
the returned response's parts are the new leading text part followed by
every original part in order, the content's role is unchanged, and the
usage metadata is unchanged (the embedded response carries exactly the
fields of the spec's data model: content parts, role, usage record). -/
theorem c7_synthesis_frame (ctx : CallbackContext) (resp : LlmResponse)
    (c : Content) (tp : Part) (target : String)
    (hc : resp.content = some c)
    (hfind : findTransferPart c.parts = some tp)
    (hextract : extractTargetAgent tp = some target)
    (hnotext : hasTextReason c.parts = false) :
    ((after_model_callback ctx resp).1.bind LlmResponse.content).map Content.parts =
      some (⟨some (handoffExplanation target), none, none, none⟩ :: c.parts) ∧
    ((after_model_callback ctx resp).1.bind LlmResponse.content).map Content.role =
      some c.role ∧
    (after_model_callback ctx resp).1.map LlmResponse.usage_metadata =
      some resp.usage_metadata := by
  rw [after_model_synthesizes ctx hc hfind hnotext hextract]
  exact ⟨rfl, rfl, rfl⟩

/-- Witness for C7 at a concrete delegating response. -/
theorem c7_synthesis_frame_witness :
    ((after_model_callback ctxRoot respSynth).1.bind LlmResponse.content).map Content.parts =
      some (⟨some (handoffExplanation "search_format_agent"), none, none, none⟩ :: contentSynth.parts) ∧
    ((after_model_callback ctxRoot respSynth).1.bind LlmResponse.content).map Content.role =
      some contentSynth.role ∧
    (after_model_callback ctxRoot respSynth).1.map LlmResponse.usage_metadata =
      some respSynth.usage_metadata :=
  c7_synthesis_frame ctxRoot respSynth contentSynth transferPart "search_format_agent"
    rfl rfl rfl rfl

/-- C9: when the synthesis succeeds, the callback prints nothing - the
default after-model trace and token-usage logging are skipped - and a
modified response is returned instead of `None`. -/
theorem c9_synthesis_skips_default_logging (ctx : CallbackContext) (resp : LlmResponse)
    (c : Content) (tp : Part) (target : String)
    (hc : resp.content = some c)
    (hfind : findTransferPart c.parts = some tp)
    (hextract : extractTargetAgent tp = some target)
    (hnotext : hasTextReason c.parts = false) :
    (after_model_callback ctx resp).2 = [] ∧
      (after_model_callback ctx resp).1 ≠ none := by
  rw [after_model_synthesizes ctx hc hfind hnotext hextract]
  exact ⟨rfl, by simp⟩

/-- Witness for C9 at a concrete delegating response carrying usage
metadata. -/
theorem c9_synthesis_skips_default_logging_witness :
    (after_model_callback ctxRoot respSynth).2 = [] ∧
      (after_model_callback ctxRoot respSynth).1 ≠ none :=
  c9_synthesis_skips_default_logging ctxRoot respSynth contentSynth transferPart
    "search_format_agent" rfl rfl rfl rfl

/-- C4: a response with no function-invocation part at all makes the
callback return `None` and print the default log: the after-model trace
line first, and the token-usage header whenever usage metadata is
present. -/
theorem c4_no_function_call_runs_default_logging (ctx : CallbackContext)
    (resp : LlmResponse)
    (hnofc : ∀ c, resp.content = some c → ∀ p ∈ c.parts, p.function_call = none) :
    after_model_callback ctx resp = (none, afterModelDefaultLog ctx resp) ∧
    (afterModelDefaultLog ctx resp).head? =
      some ("\n[Callback] <-- AFTER MODEL CALL for agent: " ++ ctx.agent_name) ∧
    (∀ u, resp.usage_metadata = some u →
      "    Token Usage:" ∈ afterModelDefaultLog ctx resp) := by
  refine ⟨?_, rfl, ?_⟩
  · cases hr : resp.content with
    | none => simp [after_model_callback, hr]
    | some c => simp [after_model_callback, hr, findTransferPart_eq_none (hnofc c hr)]
  · intro u hu
    simp [afterModelDefaultLog, hu]

/-- Witness for C4 at a plain text answer with usage metadata. -/
theorem c4_no_function_call_runs_default_logging_witness :
    after_model_callback ctxRoot respPlain = (none, afterModelDefaultLog ctxRoot respPlain) ∧
    (afterModelDefaultLog ctxRoot respPlain).head? =
      some ("\n[Callback] <-- AFTER MODEL CALL for agent: " ++ ctxRoot.agent_name) ∧
    "    Token Usage:" ∈ afterModelDefaultLog ctxRoot respPlain := by
  have h := c4_no_function_call_runs_default_logging ctxRoot respPlain (by
    intro c hc
    injection hc with hh
    subst hh
    decide)
  exact ⟨h.1, h.2.1, h.2.2 usageSample rfl⟩

/-- C6: the content-type reporter never modifies the request (the
callback's returned override is `None`); when the collected categories
are exactly text and `image/png` - one or more of each, in any order -
the reported list is exactly `["image/png", "text"]`, deduplicated and
lexicographically sorted; and the report depends only on which
categories occur, not on their order or multiplicity. -/
theorem c6_content_type_report (ctx : CallbackContext) (req : LlmRequest) :
    (before_model_callback ctx req).1 = none ∧
    ("text" ∈ collectContentTypes req → "image/png" ∈ collectContentTypes req →
      (∀ x ∈ collectContentTypes req, x = "text" ∨ x = "image/png") →
      pySortedSet (collectContentTypes req) = ["image/png", "text"]) ∧
    (∀ req2 : LlmRequest,
      (∀ a, a ∈ collectContentTypes req ↔ a ∈ collectContentTypes req2) →
      pySortedSet (collectContentTypes req) = pySortedSet (collectContentTypes req2)) := by
  refine ⟨rfl, ?_, ?_⟩
  · intro h1 h2 hall
    have heq : pySortedSet (collectContentTypes req) = pySortedSet ["image/png", "text"] := by
      apply pySortedSet_eq_of_mem_iff
      intro a
      simp only [List.mem_cons, List.not_mem_nil, or_false]
      constructor
      · intro ha
        rcases hall a ha with rfl | rfl
        · exact Or.inr rfl
        · exact Or.inl rfl
      · rintro (rfl | rfl)
        · exact h2
        · exact h1
    rw [heq]
    decide
  · intro req2 hmem
    exact pySortedSet_eq_of_mem_iff hmem

/-- Witness for C6: a request with one PNG payload and one text part (the
PNG first, the text repeated) reports `["image/png", "text"]`, and agrees
with the report of the reversed, repeat-free request. -/
theorem c6_content_type_report_witness :
    pySortedSet (collectContentTypes reqPng) = ["image/png", "text"] ∧
    pySortedSet (collectContentTypes reqPng) = pySortedSet (collectContentTypes reqPng2) :=
  ⟨(c6_content_type_report ctxRoot reqPng).2.1 (by decide) (by decide) (by decide),
   (c6_content_type_report ctxRoot reqPng).2.2 reqPng2 (by
     intro a
     show a ∈ ["image/png", "text", "image/png", "text"] ↔ a ∈ ["text", "image/png"]
     simp only [List.mem_cons, List.not_mem_nil, or_false]
     tauto)⟩

/-- C8: every pure-observability callback - before/after agent, before
model, before/after tool - returns `None` as its override for every
input, so the host proceeds unmodified; in this embedding each is a total
function, so no exception escapes the hook. -/
theorem c8_observability_callbacks_return_none :
    (∀ ctx : CallbackContext, (before_agent_callback ctx).1 = none) ∧
    (∀ ctx : CallbackContext, (after_agent_callback ctx).1 = none) ∧
    (∀ (ctx : CallbackContext) (req : LlmRequest),
      (before_model_callback ctx req).1 = none) ∧
    (∀ (tool : BaseTool) (targs : List (String × String)) (tc : ToolContext),
      (before_tool_callback tool targs tc).1 = none) ∧
    (∀ (tool : BaseTool) (targs : List (String × String)) (tc : ToolContext)
      (tresp : List (String × String)),
      (after_tool_callback tool targs tc tresp).1 = none) :=
  ⟨fun _ => rfl, fun _ => rfl, fun _ _ => rfl, fun _ _ _ => rfl, fun _ _ _ _ => rfl⟩

/-- C10: the three category checks of the reporter are independent `if`s:
a part with both non-empty text and an inline payload with a media type
contributes both categories; a part whose text is the empty string
contributes nothing from the text check; and when no part yields any
category, the callback prints only the trace header, with no
content-types line. -/
theorem c10_category_checks_independent :
    (∀ (p : Part) (t : String) (b : Blob) (m : String),
      p.text = some t → t ≠ "" → p.inline_data = some b → b.mime_type = some m → m ≠ "" →
      "text" ∈ partContentTypes p ∧ m ∈ partContentTypes p) ∧
    (∀ p : Part, p.text = some "" → textCategory p = []) ∧
    (∀ (ctx : CallbackContext) (req : LlmRequest), collectContentTypes req = [] →
      (before_model_callback ctx req).2 =
        ["\n[Callback] --> BEFORE MODEL CALL for agent: " ++ ctx.agent_name]) := by
  refine ⟨?_, ?_, ?_⟩
  · intro p t b m ht htne hb hm hmne
    constructor
    · simp [partContentTypes, textCategory, ht, htne]
    · simp [partContentTypes, inlineCategory, hb, hm, hmne]
  · intro p hp
    simp [textCategory, hp]
  · intro ctx req hempty
    simp [before_model_callback, hempty]

/-- Witness for C10: a part carrying both a caption and a PNG payload
contributes both categories; an empty-string text part contributes no
text category; a request of category-free parts logs only the header. -/
theorem c10_category_checks_independent_witness :
    ("text" ∈ partContentTypes dualPart ∧ "image/png" ∈ partContentTypes dualPart) ∧
    textCategory emptyTextPart = [] ∧
    (before_model_callback ctxRoot reqNoCats).2 =
      ["\n[Callback] --> BEFORE MODEL CALL for agent: " ++ ctxRoot.agent_name] := by
  have h := c10_category_checks_independent
  exact ⟨h.1 dualPart "caption" ⟨some "image/png"⟩ "image/png" rfl (by decide) rfl rfl (by decide),
    h.2.1 emptyTextPart rfl,
    h.2.2 ctxRoot reqNoCats rfl⟩

end Agent
